import Mathlib

/-!
Shallow embedding of the TicTacToe game-state engine
(`tictactoe_library/game.py`) and proofs of its specification claims.

Cells are `Char`s: `' '` for empty, `'X'` and `'O'` for marks, exactly as
the Python source stores them.  The board is a list of rows of chars.
Errors raised by the Python code are modelled by the `TTTError` type; a
mutating method that may raise is embedded as a function returning the
(possibly unchanged) state together with an optional error, mirroring the
fact that every `raise` in the source happens before any mutation.
-/

namespace TTT

/-- The exception hierarchy of `exceptions.py`, restricted to the errors the
game engine raises during a move, with the payloads each constructor carries. -/
inductive TTTError where
  | invalidPosition (position : Int) (limit : Nat)
  | cellOccupied (position : Int) (player : Char)
  | invalidInput (userInput : String)
  deriving DecidableEq

/-- The mutable attributes of class `TicTacToe` that take part in game logic
(set in `__init__` and `reset`). -/
structure GameState where
  board_size : Nat
  board_limit : Nat
  board : List (List Char)
  reset_player : Bool
  mode : Option Bool
  win_combinations : List (List (Nat × Nat))
  winning_coords : List (Nat × Nat)
  current_player : Char
  change_bot_play : String
  is_play_bot : Option Bool
  winner_count : Nat
  position : Option Int
  deriving DecidableEq

/-- Read `board[r][c]` (total; in the source all reads are in bounds). -/
def cellAt (b : List (List Char)) (r c : Nat) : Char :=
  (b.getD r []).getD c ' '

/-- Write `board[r][c] = v`. -/
def setCell (b : List (List Char)) (r c : Nat) (v : Char) : List (List Char) :=
  b.set r ((b.getD r []).set c v)

/-- Row line `[(i, j) for j in range(n)]`. -/
def rowLine (n i : Nat) : List (Nat × Nat) :=
  (List.range n).map (fun j => (i, j))

/-- Column line `[(j, i) for j in range(n)]`. -/
def colLine (n i : Nat) : List (Nat × Nat) :=
  (List.range n).map (fun j => (j, i))

/-- Main diagonal `[(i, i) for i in range(n)]`. -/
def mainDiag (n : Nat) : List (Nat × Nat) :=
  (List.range n).map (fun i => (i, i))

/-- Anti-diagonal `[(i, n - 1 - i) for i in range(n)]`. -/
def antiDiag (n : Nat) : List (Nat × Nat) :=
  (List.range n).map (fun i => (i, n - 1 - i))

/-- The `for i in range(k)` loop body of `_generate_win_combinations`:
each iteration appends the row line `i` and then the column line `i`. -/
def rowColLines (n : Nat) : Nat → List (List (Nat × Nat))
  | 0 => []
  | k + 1 => rowColLines n k ++ [rowLine n k, colLine n k]

/-- `TicTacToe._generate_win_combinations`: the loop over `range(n)`
followed by appending the two diagonals. -/
def generate_win_combinations (n : Nat) : List (List (Nat × Nat)) :=
  rowColLines n n ++ [mainDiag n, antiDiag n]

/-- The state established by `TicTacToe.__init__(board_size, mode)` after the
size validation has passed. -/
def initState (n : Nat) (mode : Option Bool) : GameState where
  board_size := n
  board_limit := n * n
  board := List.replicate n (List.replicate n ' ')
  reset_player := false
  mode := mode
  win_combinations := generate_win_combinations n
  winning_coords := []
  current_player := 'X'
  change_bot_play := "player"
  is_play_bot := mode
  winner_count := 0
  position := none

/-- `TicTacToe.reset`: reinitializes every game attribute from `board_size`
and `mode`; the precomputed `win_combinations` are not touched. -/
def reset (s : GameState) : GameState :=
  { s with
    reset_player := false
    current_player := 'X'
    board := List.replicate s.board_size (List.replicate s.board_size ' ')
    winning_coords := []
    board_limit := s.board_size * s.board_size
    winner_count := 0
    change_bot_play := "player"
    is_play_bot := s.mode
    position := none }

/-- `TicTacToe._is_draw`: `all(' ' not in row for row in self.board)`. -/
def is_draw (s : GameState) : Bool :=
  s.board.all (fun row => !(row.contains ' '))

/-- The values `[self.board[r][c] for r, c in combo]` of one line. -/
def lineValues (s : GameState) (combo : List (Nat × Nat)) : List Char :=
  combo.map (fun rc => cellAt s.board rc.1 rc.2)

/-- The loop of `_is_winner` over the win-line catalog: on the first line
whose `X` count or `O` count equals `board_size` it records the line in
`winning_coords` and returns `True`; otherwise returns `False`. -/
def isWinnerLoop (s : GameState) : List (List (Nat × Nat)) → Bool × GameState
  | [] => (false, s)
  | combo :: rest =>
    let may_win := lineValues s combo
    if may_win.count 'X' = s.board_size ∨ may_win.count 'O' = s.board_size then
      (true, { s with winning_coords := combo })
    else
      isWinnerLoop s rest

/-- `TicTacToe._is_winner` (returned flag together with the updated state). -/
def is_winner (s : GameState) : Bool × GameState :=
  isWinnerLoop s s.win_combinations

/-- `TicTacToe._is_cell_occupied`. -/
def is_cell_occupied (s : GameState) (row col : Nat) : Bool :=
  cellAt s.board row col != ' '

/-- The zero-based target cell `((position-1) // n, (position-1) % n)`
computed by `_try_make_move` for an in-range position. -/
def targetCell (s : GameState) (p : Int) : Nat × Nat :=
  ((p - 1).toNat / s.board_size, (p - 1).toNat % s.board_size)

/-- `TicTacToe._try_make_move` on an already-converted integer position:
range check, cell-occupancy check, then increment `winner_count` and place
the current player's mark.  Returns the state after the call together with
the raised error, if any; both `raise` statements occur before any
mutation, so on an error the state is returned untouched. -/
def try_make_move (s : GameState) (p : Int) : GameState × Option TTTError :=
  if ¬(1 ≤ p ∧ p ≤ (s.board_limit : Int)) then
    (s, some (.invalidPosition p s.board_limit))
  else
    let row := (targetCell s p).1
    let col := (targetCell s p).2
    if is_cell_occupied s row col then
      (s, some (.cellOccupied p (cellAt s.board row col)))
    else
      ({ s with
          winner_count := s.winner_count + 1
          board := setCell s.board row col s.current_player }, none)

/-- Python `str.isdigit` restricted to ASCII tokens: non-empty and every
character a decimal digit. -/
def pyIsDigit (t : String) : Bool :=
  t.length > 0 && t.toList.all Char.isDigit

/-- `TicTacToe._validate_move`: raises `InvalidInputError(pos_str)` when
`pos_str.isdigit()` is false. -/
def validate_move (pos_str : String) : Option TTTError :=
  if ¬ pyIsDigit pos_str then some (.invalidInput pos_str) else none

/-- `TicTacToe._switch_player`'s toggle of `current_player` (the branch
taken during normal play). -/
def switch_player (s : GameState) : GameState :=
  { s with current_player := if s.current_player = 'X' then 'O' else 'X' }

/-- The helper `find_empty_in_line(symbol, target_count)` inside
`_get_ai_move`: scan the catalog in order for a line whose `symbol` count is
`target_count` and whose blank count is exactly 1, and return the coordinate
at the index of the blank. -/
def findEmptyLoop (s : GameState) (symbol : Char) (target_count : Nat) :
    List (List (Nat × Nat)) → Option (Nat × Nat)
  | [] => none
  | combo :: rest =>
    let line_values := lineValues s combo
    if line_values.count symbol = target_count ∧ line_values.count ' ' = 1 then
      some (combo.getD (line_values.indexOf ' ') (0, 0))
    else
      findEmptyLoop s symbol target_count rest

/-- `find_empty_in_line` applied to the whole catalog. -/
def find_empty_in_line (s : GameState) (symbol : Char) (target_count : Nat) :
    Option (Nat × Nat) :=
  findEmptyLoop s symbol target_count s.win_combinations

/-- The list comprehension of empty cells in `_get_ai_move`, in row-major
order. -/
def empty_cells (s : GameState) : List (Nat × Nat) :=
  ((List.range s.board_size).map (fun r =>
    ((List.range s.board_size).filter
      (fun c => cellAt s.board r c = ' ')).map (fun c => (r, c)))).flatten

/-- `TicTacToe._get_ai_move`.  The only randomness is `random.choice` on the
non-empty list of empty cells; it is modelled by an arbitrary index function
`pickIdx`, reduced modulo the list length so that any `pickIdx` yields a
member of the list, exactly as `choice` does. -/
def get_ai_move (s : GameState) (pickIdx : List (Nat × Nat) → Nat) :
    Option (Nat × Nat) :=
  match find_empty_in_line s 'O' (s.board_size - 1) with
  | some move => some move
  | none =>
    match find_empty_in_line s 'X' (s.board_size - 1) with
    | some move => some move
    | none =>
      let center := s.board_size / 2
      if cellAt s.board center center = ' ' then
        some (center, center)
      else
        let cells := empty_cells s
        if cells.isEmpty then none
        else some (cells.getD (pickIdx cells % cells.length) (0, 0))

/-- Well-formedness of the board storage: an `n × n` matrix, as guaranteed
by `__init__`/`reset` and preserved by every move. -/
def WFBoard (s : GameState) : Prop :=
  s.board.length = s.board_size ∧ ∀ row ∈ s.board, row.length = s.board_size

/-- Number of non-blank cells on the board. -/
def countMarks (s : GameState) : Nat :=
  (s.board.map (fun row => row.countP (fun c => c ≠ ' '))).sum

/-- Modelled from the spec: the claimed catalog order "all rows precede all
columns, which precede the two diagonals" (the source's
`_generate_win_combinations` is the authority it is compared against). -/
def rowsFirstCatalog (n : Nat) : List (List (Nat × Nat)) :=
  (List.range n).map (rowLine n) ++ (List.range n).map (colLine n) ++
    [mainDiag n, antiDiag n]

/-- A full 2×2 board whose first row is a winning `X` line: every cell is
occupied and `_is_winner` holds. -/
def fullWonState : GameState :=
  { initState 2 none with board := [['X', 'X'], ['O', 'O']] }

/-- A 3×3 position in which `O` occupies (0,0) and (0,1) while (0,2) is
empty: the bot must play the winning cell (0,2). -/
def oWinThreat : GameState :=
  { initState 3 none with
    board := [['O', 'O', ' '], [' ', ' ', ' '], [' ', ' ', ' ']] }

/-- Decimal value of a token that is a non-empty all-digit string, `none`
otherwise. -/
def digitsToNat (l : List Char) : Option Nat :=
  if l ≠ [] ∧ l.all Char.isDigit then
    some (l.foldl (fun acc c => acc * 10 + (c.toNat - '0'.toNat)) 0)
  else none

/-- Python `int(token)` on a stripped token: an optional sign followed by
decimal digits. -/
def pyIntParse (t : String) : Option Int :=
  match t.toList with
  | '+' :: rest => (digitsToNat rest).map (fun k => (k : Int))
  | '-' :: rest => (digitsToNat rest).map (fun k => -(k : Int))
  | l => (digitsToNat l).map (fun k => (k : Int))

/-- Modelled from the spec: "the token is parseable as a positive integer"
(the property `_validate_move` is claimed to test). -/
def parsesAsPositiveInt (t : String) : Bool :=
  match pyIntParse t with
  | some k => decide (0 < k)
  | none => false

/-- States reachable from construction with size `n` and mode `mode` through
`reset`, `_try_make_move` (successful or failing), `_switch_player` and
`_is_winner` calls. -/
inductive Reachable (n : Nat) (mode : Option Bool) : GameState → Prop
  | init : Reachable n mode (initState n mode)
  | reset {s} : Reachable n mode s → Reachable n mode (reset s)
  | move {s} (p : Int) : Reachable n mode s → Reachable n mode (try_make_move s p).1
  | switch {s} : Reachable n mode s → Reachable n mode (switch_player s)
  | winnerCheck {s} : Reachable n mode s → Reachable n mode (is_winner s).2

/-- C3 (counterexample): already at `n = 3` the generated catalog is not the
claimed "all rows, then all columns, then the diagonals" sequence — the
second entry is column 0, not row 1. -/
theorem catalog_not_rows_first : generate_win_combinations 3 ≠ rowsFirstCatalog 3 := by
  decide

/-- C3 (amended): for every board size `n ∈ [2,9]` the catalog interleaves
rows and columns: entry `2i` is row `i`, entry `2i+1` is column `i`, and the
final two entries are the main and the anti-diagonal. -/
theorem catalog_interleaved_order (n : Nat) (h2 : 2 ≤ n) (h9 : n ≤ 9) :
    (generate_win_combinations n).length = 2 * n + 2 ∧
    (∀ i < n, (generate_win_combinations n).getD (2 * i) [] = rowLine n i ∧
      (generate_win_combinations n).getD (2 * i + 1) [] = colLine n i) ∧
    (generate_win_combinations n).getD (2 * n) [] = mainDiag n ∧
    (generate_win_combinations n).getD (2 * n + 1) [] = antiDiag n := by
  have aux : ∀ m : Fin 10, 2 ≤ m.val →
      (generate_win_combinations m.val).length = 2 * m.val + 2 ∧
      (∀ i < m.val, (generate_win_combinations m.val).getD (2 * i) [] = rowLine m.val i ∧
        (generate_win_combinations m.val).getD (2 * i + 1) [] = colLine m.val i) ∧
      (generate_win_combinations m.val).getD (2 * m.val) [] = mainDiag m.val ∧
      (generate_win_combinations m.val).getD (2 * m.val + 1) [] = antiDiag m.val := by
    decide
  exact aux ⟨n, by omega⟩ h2

/-- C3 (witness): the amended order at `n = 3`: entry 2 is row 1 and entry 3
is column 1. -/
theorem catalog_interleaved_order_witness :
    (generate_win_combinations 3).getD 2 [] = rowLine 3 1 ∧
    (generate_win_combinations 3).getD 3 [] = colLine 3 1 := by
  have h := (catalog_interleaved_order 3 (by decide) (by decide)).2.1 1 (by decide)
  exact ⟨h.1, h.2⟩

/-- C9: for every board size `n ∈ [2,9]` the catalog has exactly `2n+2`
lines, each of length `n`, with every coordinate inside `[0,n)`, and no two
lines equal. -/
theorem catalog_shape_spec (n : Nat) (h2 : 2 ≤ n) (h9 : n ≤ 9) :
    (generate_win_combinations n).length = 2 * n + 2 ∧
    (∀ l ∈ generate_win_combinations n, l.length = n) ∧
    (∀ l ∈ generate_win_combinations n, ∀ rc ∈ l, rc.1 < n ∧ rc.2 < n) ∧
    (generate_win_combinations n).Nodup := by
  have aux : ∀ m : Fin 10, 2 ≤ m.val →
      (generate_win_combinations m.val).length = 2 * m.val + 2 ∧
      (∀ l ∈ generate_win_combinations m.val, l.length = m.val) ∧
      (∀ l ∈ generate_win_combinations m.val, ∀ rc ∈ l, rc.1 < m.val ∧ rc.2 < m.val) ∧
      (generate_win_combinations m.val).Nodup := by
    decide
  exact aux ⟨n, by omega⟩ h2

/-- C9 (witness): the catalog shape at `n = 3`: 8 pairwise distinct lines. -/
theorem catalog_shape_spec_witness :
    (generate_win_combinations 3).length = 2 * 3 + 2 ∧
    (generate_win_combinations 3).Nodup := by
  have h := catalog_shape_spec 3 (by decide) (by decide)
  exact ⟨h.1, h.2.2.2⟩

/-- C4 (counterexample): on a full board with a winning line, `_is_draw`
returns `True` even though `_is_winner` is also `True` — it tests only
fullness, not the claimed "full AND no winner". -/
theorem draw_ignores_winner_cex :
    ¬(is_draw fullWonState = true ↔
      (empty_cells fullWonState = [] ∧ (is_winner fullWonState).1 = false)) := by
  decide

/-- C7 (counterexample): the token `"0"` is not parseable as a positive
integer, yet `_validate_move` accepts it (because `"0".isdigit()` is true),
so validation does not fail exactly on the non-positive-parseable tokens. -/
theorem validate_move_zero_cex :
    ¬(validate_move "0" = some (.invalidInput "0") ↔
      parsesAsPositiveInt "0" = false) := by
  decide

/-- Reading a cell through `cellAt` agrees with direct in-bounds indexing. -/
theorem cellAt_eq_getElem {b : List (List Char)} {r c : Nat} (hr : r < b.length)
    (hc : c < b[r].length) : cellAt b r c = b[r][c] := by
  unfold cellAt
  rw [List.getD_eq_getElem b [] hr, List.getD_eq_getElem _ ' ' hc]

/-- C4 (amended): `_is_draw` is true iff the board is completely full (no
empty cell remains), irrespective of any winner; the play loop only consults
it after `_is_winner` has returned false. -/
theorem draw_iff_board_full (s : GameState) (hb : WFBoard s) :
    is_draw s = true ↔ empty_cells s = [] := by
  obtain ⟨hlen, hrow⟩ := hb
  have hdraw : is_draw s = true ↔ ∀ row ∈ s.board, ¬(' ' ∈ row) := by
    simp [is_draw, List.all_eq_true]
  have hempty : empty_cells s = [] ↔
      ∀ r < s.board_size, ∀ c < s.board_size, ¬(cellAt s.board r c = ' ') := by
    simp [empty_cells, List.flatten_eq_nil_iff, List.map_eq_nil_iff, List.filter_eq_nil_iff,
      List.mem_range]
  rw [hdraw, hempty]
  constructor
  · intro h r hr c hc hcell
    have hr' : r < s.board.length := by omega
    have hmem : s.board[r] ∈ s.board := List.getElem_mem hr'
    have hc' : c < (s.board[r]).length := by rw [hrow _ hmem]; omega
    rw [cellAt_eq_getElem hr' hc'] at hcell
    exact h _ hmem (hcell ▸ List.getElem_mem hc')
  · intro h row hmemrow hsp
    obtain ⟨r, hr, hrowr⟩ := List.mem_iff_getElem.mp hmemrow
    obtain ⟨c, hc, hcc⟩ := List.mem_iff_getElem.mp hsp
    have hrn : r < s.board_size := by omega
    have hcn : c < s.board_size := by
      have := hrow row hmemrow
      subst hrowr; omega
    refine h r hrn c hcn ?_
    subst hrowr
    rw [cellAt_eq_getElem hr hc]
    exact hcc

/-- C4 (witness): on the full won 2×2 board the amended equivalence holds
with both sides true. -/
theorem draw_iff_board_full_witness :
    is_draw fullWonState = true ↔ empty_cells fullWonState = [] := by
  refine draw_iff_board_full fullWonState ?_
  refine ⟨by decide, ?_⟩
  decide

/-- C7 (amended): `_validate_move` fails, always with `InvalidInputError`
carrying the raw token, iff the token is not a non-empty string of decimal
digit characters; in particular `"0"` passes validation even though it does
not denote a positive integer (the range check rejects it later). -/
theorem validate_move_digit_spec (t : String) :
    (validate_move t = some (.invalidInput t) ↔
      ¬(t.toList ≠ [] ∧ ∀ c ∈ t.toList, c.isDigit = true)) ∧
    (validate_move t = none ↔ (t.toList ≠ [] ∧ ∀ c ∈ t.toList, c.isDigit = true)) ∧
    (∀ e, validate_move t = some e → e = .invalidInput t) := by
  have hiff : pyIsDigit t = true ↔ (t.toList ≠ [] ∧ ∀ c ∈ t.toList, c.isDigit = true) := by
    rcases t with ⟨l⟩
    simp [pyIsDigit, String.length, String.toList, List.all_eq_true, List.length_pos]
  by_cases h : pyIsDigit t = true
  · simp [validate_move, h]
    exact hiff.mp h
  · rw [← hiff]
    simp [validate_move, h]

/-- C7 (witness): `"27"` passes validation, `"x1"` fails with
`InvalidInputError("x1")`. -/
theorem validate_move_digit_spec_witness :
    validate_move "27" = none ∧ validate_move "x1" = some (.invalidInput "x1") := by
  refine ⟨(validate_move_digit_spec "27").2.1.mpr (by decide), ?_⟩
  exact (validate_move_digit_spec "x1").1.mpr (by decide)

/-- An out-of-range position makes `_try_make_move` raise
`InvalidPositionError` and leave the state untouched. -/
theorem try_make_move_out (s : GameState) (p : Int)
    (h : ¬(1 ≤ p ∧ p ≤ (s.board_limit : Int))) :
    try_make_move s p = (s, some (.invalidPosition p s.board_limit)) := by
  simp [try_make_move, h]

/-- An in-range position on an occupied cell makes `_try_make_move` raise
`CellOccupiedError` and leave the state untouched. -/
theorem try_make_move_occ (s : GameState) (p : Int)
    (hin : 1 ≤ p ∧ p ≤ (s.board_limit : Int))
    (hocc : is_cell_occupied s (targetCell s p).1 (targetCell s p).2 = true) :
    try_make_move s p =
      (s, some (.cellOccupied p (cellAt s.board (targetCell s p).1 (targetCell s p).2))) := by
  simp [try_make_move, hin, hocc]

/-- An in-range position on an empty cell places the current player's mark
and increments `winner_count`, changing nothing else. -/
theorem try_make_move_ok (s : GameState) (p : Int)
    (hin : 1 ≤ p ∧ p ≤ (s.board_limit : Int))
    (hocc : is_cell_occupied s (targetCell s p).1 (targetCell s p).2 = false) :
    try_make_move s p =
      ({ s with
          winner_count := s.winner_count + 1
          board := setCell s.board (targetCell s p).1 (targetCell s p).2 s.current_player },
        none) := by
  simp [try_make_move, hin, hocc]

/-- C6: `_try_make_move` raises `InvalidPositionError(p, n²)` exactly when
the integer position is outside `[1, n²]` — in particular positions `0` and
`n²+1` always fail — and a position `p ≥ 1` targets the zero-based cell
`((p-1) / n, (p-1) % n)`. -/
theorem move_position_range_spec (s : GameState) (p : Int)
    (hL : s.board_limit = s.board_size * s.board_size) :
    ((try_make_move s p).2 = some (.invalidPosition p s.board_limit) ↔
      ¬(1 ≤ p ∧ p ≤ ((s.board_size * s.board_size : Nat) : Int))) ∧
    (1 ≤ p →
      ((targetCell s p).1 : Int) = (p - 1) / (s.board_size : Int) ∧
      ((targetCell s p).2 : Int) = (p - 1) % (s.board_size : Int)) ∧
    ((try_make_move s 0).2 = some (.invalidPosition 0 s.board_limit)) ∧
    ((try_make_move s (((s.board_size * s.board_size : Nat) : Int) + 1)).2 =
      some (.invalidPosition (((s.board_size * s.board_size : Nat) : Int) + 1)
        s.board_limit)) := by
  have hout : ∀ q : Int, ¬(1 ≤ q ∧ q ≤ ((s.board_size * s.board_size : Nat) : Int)) →
      (try_make_move s q).2 = some (.invalidPosition q s.board_limit) := by
    intro q hq
    rw [try_make_move_out s q (by rw [hL]; exact hq)]
  refine ⟨?_, ?_, ?_, ?_⟩
  · constructor
    · intro h
      intro hin
      have hin' : 1 ≤ p ∧ p ≤ (s.board_limit : Int) := by rw [hL]; exact hin
      by_cases hocc : is_cell_occupied s (targetCell s p).1 (targetCell s p).2 = true
      · rw [try_make_move_occ s p hin' hocc] at h
        simp at h
      · rw [try_make_move_ok s p hin' (by simpa using hocc)] at h
        simp at h
    · exact hout p
  · intro hp1
    unfold targetCell
    constructor
    · show (((p - 1).toNat / s.board_size : Nat) : Int) = (p - 1) / (s.board_size : Int)
      rw [Int.natCast_div, Int.toNat_of_nonneg (by omega)]
    · show (((p - 1).toNat % s.board_size : Nat) : Int) = (p - 1) % (s.board_size : Int)
      rw [Int.natCast_mod, Int.toNat_of_nonneg (by omega)]
  · exact hout 0 (by intro h; omega)
  · refine hout _ ?_
    intro h
    obtain ⟨-, h2⟩ := h
    omega

/-- C6 (witness): on a 3×3 board positions 0 and 10 raise
`InvalidPositionError` with limit 9, while the in-range position 5 does
not. -/
theorem move_position_range_spec_witness :
    (try_make_move (initState 3 none) 0).2 = some (.invalidPosition 0 9) ∧
    (try_make_move (initState 3 none) 10).2 = some (.invalidPosition 10 9) ∧
    (try_make_move (initState 3 none) 5).2 ≠
      some (.invalidPosition 5 (initState 3 none).board_limit) := by
  have h := move_position_range_spec (initState 3 none) 5 (by decide)
  refine ⟨h.2.2.1, h.2.2.2, ?_⟩
  intro hc
  exact (h.1.mp hc) (by decide)

/-- C5: for an in-range position, `_try_make_move` on an occupied cell
raises `CellOccupiedError` carrying the position and the occupying mark and
never overwrites the cell; on an empty cell it places the current player's
mark, increments `winner_count` by exactly one and does not switch the
player; and whenever any error is raised the whole state is unchanged. -/
theorem move_cell_occupancy_spec (s : GameState) (p : Int)
    (h1 : 1 ≤ p) (h2 : p ≤ (s.board_limit : Int)) :
    (is_cell_occupied s (targetCell s p).1 (targetCell s p).2 = true →
      try_make_move s p =
        (s, some (.cellOccupied p (cellAt s.board (targetCell s p).1 (targetCell s p).2)))) ∧
    (is_cell_occupied s (targetCell s p).1 (targetCell s p).2 = false →
      try_make_move s p =
        ({ s with
            winner_count := s.winner_count + 1
            board := setCell s.board (targetCell s p).1 (targetCell s p).2 s.current_player },
          none)) ∧
    (∀ (q : Int) (e : TTTError), (try_make_move s q).2 = some e → (try_make_move s q).1 = s) := by
  refine ⟨fun hocc => try_make_move_occ s p ⟨h1, h2⟩ hocc,
    fun hocc => try_make_move_ok s p ⟨h1, h2⟩ hocc, ?_⟩
  intro q e he
  by_cases hin : 1 ≤ q ∧ q ≤ (s.board_limit : Int)
  · by_cases hocc : is_cell_occupied s (targetCell s q).1 (targetCell s q).2 = true
    · rw [try_make_move_occ s q hin hocc]
    · rw [try_make_move_ok s q hin (by simpa using hocc)] at he ⊢
      simp at he
  · rw [try_make_move_out s q hin]

/-- C5 (witness): the first move into cell 1 of a fresh 2×2 board places an
`X` and increments the move counter. -/
theorem move_cell_occupancy_spec_witness :
    try_make_move (initState 2 none) 1 =
      ({ initState 2 none with
          winner_count := 1
          board := setCell (initState 2 none).board (targetCell (initState 2 none) 1).1
            (targetCell (initState 2 none) 1).2 'X' }, none) := by
  have h := (move_cell_occupancy_spec (initState 2 none) 1 (by decide) (by decide)).2.1 (by decide)
  exact h

/-- The `_is_winner` loop reports a win iff some scanned line has `n` equal
marks. -/
theorem isWinnerLoop_fst_iff (s : GameState) (l : List (List (Nat × Nat))) :
    (isWinnerLoop s l).1 = true ↔ ∃ combo ∈ l,
      ((lineValues s combo).count 'X' = s.board_size ∨
       (lineValues s combo).count 'O' = s.board_size) := by
  induction l with
  | nil => simp [isWinnerLoop]
  | cons combo rest ih =>
    by_cases h : (lineValues s combo).count 'X' = s.board_size ∨
        (lineValues s combo).count 'O' = s.board_size
    · simp [isWinnerLoop, h]
    · simp [isWinnerLoop, h, ih]

/-- When the `_is_winner` loop reports a win, the recorded `winning_coords`
is the first scanned line with `n` equal marks. -/
theorem isWinnerLoop_find (s : GameState) (l : List (List (Nat × Nat))) :
    (isWinnerLoop s l).1 = true →
    l.find? (fun combo =>
      decide ((lineValues s combo).count 'X' = s.board_size ∨
        (lineValues s combo).count 'O' = s.board_size)) =
      some ((isWinnerLoop s l).2.winning_coords) := by
  induction l with
  | nil => simp [isWinnerLoop]
  | cons combo rest ih =>
    by_cases h : (lineValues s combo).count 'X' = s.board_size ∨
        (lineValues s combo).count 'O' = s.board_size
    · have hl : isWinnerLoop s (combo :: rest) = (true, { s with winning_coords := combo }) := by
        simp [isWinnerLoop, h]
      rw [hl, List.find?_cons_of_pos _ (by simpa using h)]
      intro _
      rfl
    · have hl : isWinnerLoop s (combo :: rest) = isWinnerLoop s rest := by
        simp [isWinnerLoop, h]
      rw [hl, List.find?_cons_of_neg _ (by simpa using h)]
      exact ih

/-- When the `_is_winner` loop finds no win, the state is left untouched. -/
theorem isWinnerLoop_false (s : GameState) (l : List (List (Nat × Nat))) :
    (isWinnerLoop s l).1 = false → (isWinnerLoop s l).2 = s := by
  induction l with
  | nil => simp [isWinnerLoop]
  | cons combo rest ih =>
    by_cases h : (lineValues s combo).count 'X' = s.board_size ∨
        (lineValues s combo).count 'O' = s.board_size
    · simp [isWinnerLoop, h]
    · have hl : isWinnerLoop s (combo :: rest) = isWinnerLoop s rest := by
        simp [isWinnerLoop, h]
      rw [hl]
      exact ih

/-- The `_is_winner` verdict does not depend on `current_player`. -/
theorem isWinnerLoop_player (s : GameState) (ch : Char) (l : List (List (Nat × Nat))) :
    (isWinnerLoop { s with current_player := ch } l).1 = (isWinnerLoop s l).1 := by
  induction l with
  | nil => simp [isWinnerLoop]
  | cons combo rest ih =>
    by_cases h : (lineValues s combo).count 'X' = s.board_size ∨
        (lineValues s combo).count 'O' = s.board_size
    · have h' : (lineValues { s with current_player := ch } combo).count 'X' =
          ({ s with current_player := ch } : GameState).board_size ∨
          (lineValues { s with current_player := ch } combo).count 'O' =
          ({ s with current_player := ch } : GameState).board_size := h
      have hl1 : isWinnerLoop s (combo :: rest) = (true, { s with winning_coords := combo }) := by
        simp [isWinnerLoop, h]
      have hl2 : isWinnerLoop { s with current_player := ch } (combo :: rest) =
          (true, { s with current_player := ch, winning_coords := combo }) := by
        simp [isWinnerLoop, h']
      rw [hl1, hl2]
    · have h' : ¬((lineValues { s with current_player := ch } combo).count 'X' =
          ({ s with current_player := ch } : GameState).board_size ∨
          (lineValues { s with current_player := ch } combo).count 'O' =
          ({ s with current_player := ch } : GameState).board_size) := h
      have hl1 : isWinnerLoop s (combo :: rest) = isWinnerLoop s rest := by
        simp [isWinnerLoop, h]
      have hl2 : isWinnerLoop { s with current_player := ch } (combo :: rest) =
          isWinnerLoop { s with current_player := ch } rest := by
        simp [isWinnerLoop, h']
      rw [hl1, hl2, ih]

/-- C1: `_is_winner` returns true iff some catalog line has an `X` count or
an `O` count equal to `n` (symmetrically, and independently of
`current_player`); when true, the first such line in catalog order is
recorded in `winning_coords`; when false, the state is unchanged. -/
theorem winner_iff_monochromatic_line (s : GameState) :
    ((is_winner s).1 = true ↔ ∃ combo ∈ s.win_combinations,
      ((lineValues s combo).count 'X' = s.board_size ∨
       (lineValues s combo).count 'O' = s.board_size)) ∧
    ((is_winner s).1 = true →
      s.win_combinations.find? (fun combo =>
        decide ((lineValues s combo).count 'X' = s.board_size ∨
          (lineValues s combo).count 'O' = s.board_size)) =
        some ((is_winner s).2.winning_coords)) ∧
    ((is_winner s).1 = false → (is_winner s).2 = s) ∧
    (∀ ch, (is_winner { s with current_player := ch }).1 = (is_winner s).1) := by
  refine ⟨isWinnerLoop_fst_iff s s.win_combinations,
    isWinnerLoop_find s s.win_combinations,
    isWinnerLoop_false s s.win_combinations,
    fun ch => isWinnerLoop_player s ch s.win_combinations⟩

/-- C1 (witness): on the full won 2×2 board `_is_winner` is true and records
the first winning line, row 0. -/
theorem winner_iff_monochromatic_line_witness :
    (is_winner fullWonState).1 = true ∧
    (is_winner fullWonState).2.winning_coords = [(0, 0), (0, 1)] := by
  have h := winner_iff_monochromatic_line fullWonState
  have ht : (is_winner fullWonState).1 = true :=
    h.1.mpr ⟨[(0, 0), (0, 1)], by decide, by decide⟩
  refine ⟨ht, ?_⟩
  have hf := h.2.1 ht
  have heval : fullWonState.win_combinations.find? (fun combo =>
      decide ((lineValues fullWonState combo).count 'X' = fullWonState.board_size ∨
        (lineValues fullWonState combo).count 'O' = fullWonState.board_size)) =
      some [(0, 0), (0, 1)] := by decide
  rw [heval] at hf
  exact (Option.some.inj hf).symm

/-- Setting a blank entry of a row to a non-blank value raises its
non-blank count by one. -/
theorem countP_set_succ {p : Char → Bool} {row : List Char} {c : Nat} (hc : c < row.length)
    (hblank : p row[c] = false) {v : Char} (hv : p v = true) :
    (row.set c v).countP p = row.countP p + 1 := by
  induction row generalizing c with
  | nil => simp at hc
  | cons a as ih =>
    cases c with
    | zero =>
      simp only [List.getElem_cons_zero] at hblank
      simp [List.countP_cons, hv, hblank]
    | succ c =>
      simp only [List.getElem_cons_succ] at hblank
      have hc' : c < as.length := by simpa using hc
      simp only [List.set, List.countP_cons, ih hc' hblank]
      omega

/-- Replacing one row changes a summed row statistic by the difference of
that row's contribution. -/
theorem sum_map_set {f : List Char → Nat} (b : List (List Char)) (r : Nat)
    (row' : List Char) (hr : r < b.length) :
    ((b.set r row').map f).sum + f b[r] = (b.map f).sum + f row' := by
  induction b generalizing r with
  | nil => simp at hr
  | cons a as ih =>
    cases r with
    | zero => simp [List.set]; omega
    | succ r =>
      have hr' : r < as.length := by simpa using hr
      have h2 := ih r hr'
      simp only [List.set, List.map_cons, List.sum_cons, List.getElem_cons_succ]
      omega

/-- A successful `_try_make_move` raises the non-blank cell count by exactly
one and keeps the board an `n × n` matrix. -/
theorem try_make_move_ok_inv {s : GameState} {p : Int}
    (hin : 1 ≤ p ∧ p ≤ (s.board_limit : Int))
    (hocc : is_cell_occupied s (targetCell s p).1 (targetCell s p).2 = false)
    (hwf : WFBoard s) (hL : s.board_limit = s.board_size * s.board_size)
    (hv : s.current_player ≠ ' ') :
    countMarks (try_make_move s p).1 = countMarks s + 1 ∧
    WFBoard (try_make_move s p).1 := by
  obtain ⟨hlen, hrows⟩ := hwf
  have hsq : (p - 1).toNat < s.board_size * s.board_size := by
    rcases hin with ⟨h1, h2⟩
    rw [hL] at h2
    generalize hM : s.board_size * s.board_size = M at h2
    omega
  have hn : 0 < s.board_size := by
    rcases Nat.eq_zero_or_pos s.board_size with h0 | h0
    · rw [h0] at hsq; omega
    · exact h0
  have hrn : (targetCell s p).1 < s.board_size := by
    show (p - 1).toNat / s.board_size < s.board_size
    rw [Nat.div_lt_iff_lt_mul hn]
    exact hsq
  have hcn : (targetCell s p).2 < s.board_size := Nat.mod_lt _ hn
  have hrb : (targetCell s p).1 < s.board.length := by rw [hlen]; exact hrn
  have hcb : (targetCell s p).2 < (s.board[(targetCell s p).1]).length := by
    rw [hrows _ (List.getElem_mem hrb)]; exact hcn
  have hcell : s.board[(targetCell s p).1][(targetCell s p).2] = ' ' := by
    have hc0 : cellAt s.board (targetCell s p).1 (targetCell s p).2 = ' ' := by
      simpa [is_cell_occupied] using hocc
    rwa [cellAt_eq_getElem hrb hcb] at hc0
  have hgetD : s.board.getD (targetCell s p).1 [] = s.board[(targetCell s p).1] :=
    List.getD_eq_getElem s.board [] hrb
  rw [try_make_move_ok s p hin hocc]
  constructor
  · show ((setCell s.board (targetCell s p).1 (targetCell s p).2 s.current_player).map
      (fun row => row.countP (fun x => x ≠ ' '))).sum = countMarks s + 1
    unfold setCell
    rw [hgetD]
    have hrow' : ((s.board[(targetCell s p).1]).set (targetCell s p).2 s.current_player).countP
        (fun x => x ≠ ' ') = (s.board[(targetCell s p).1]).countP (fun x => x ≠ ' ') + 1 :=
      countP_set_succ hcb (by simp [hcell]) (by simpa using hv)
    have hsum := sum_map_set (f := fun row => row.countP (fun x => x ≠ ' ')) s.board
      (targetCell s p).1 ((s.board[(targetCell s p).1]).set (targetCell s p).2 s.current_player)
      hrb
    simp only [hrow'] at hsum
    unfold countMarks
    omega
  · refine ⟨?_, ?_⟩
    · show (setCell s.board (targetCell s p).1 (targetCell s p).2 s.current_player).length =
        s.board_size
      unfold setCell
      rw [List.length_set, hlen]
    · intro row hmem
      have hmem' : row ∈ s.board.set (targetCell s p).1
          ((s.board.getD (targetCell s p).1 []).set (targetCell s p).2 s.current_player) :=
        hmem
      rcases List.mem_or_eq_of_mem_set hmem' with h | h
      · exact hrows _ h
      · subst h
        rw [List.length_set, hgetD]
        exact hrows _ (List.getElem_mem hrb)

/-- An all-blank board has no marks. -/
theorem countMarks_blank (m k : Nat) :
    ((List.replicate m (List.replicate k ' ')).map
      (fun row => row.countP (fun x => x ≠ ' '))).sum = 0 := by
  simp [List.map_replicate, List.countP_eq_zero, List.mem_replicate, List.sum_replicate]

/-- `__init__` builds an `n × n` board. -/
theorem wf_initState (n : Nat) (mode : Option Bool) : WFBoard (initState n mode) := by
  refine ⟨by simp [initState], ?_⟩
  intro row h
  simp only [initState] at h
  rw [List.eq_of_mem_replicate h]
  simp [initState]

/-- `reset` rebuilds an `n × n` board. -/
theorem wf_reset (s : GameState) : WFBoard (reset s) := by
  refine ⟨by simp [reset], ?_⟩
  intro row h
  simp only [reset] at h
  rw [List.eq_of_mem_replicate h]
  simp [reset]

/-- The `_is_winner` loop changes at most `winning_coords`. -/
theorem isWinnerLoop_snd (s : GameState) (l : List (List (Nat × Nat))) :
    (isWinnerLoop s l).2 = s ∨
    ∃ combo, (isWinnerLoop s l).2 = { s with winning_coords := combo } := by
  induction l with
  | nil => exact Or.inl rfl
  | cons combo rest ih =>
    by_cases h : (lineValues s combo).count 'X' = s.board_size ∨
        (lineValues s combo).count 'O' = s.board_size
    · exact Or.inr ⟨combo, by simp [isWinnerLoop, h]⟩
    · have hl : isWinnerLoop s (combo :: rest) = isWinnerLoop s rest := by
        simp [isWinnerLoop, h]
      rw [hl]
      exact ih

/-- Every reachable state keeps its size, mode and precomputed catalog, its
board an `n × n` matrix, its player one of `X`/`O`, and its move counter
equal to the number of non-blank cells. -/
theorem reachable_inv {n : Nat} {mode : Option Bool} {s : GameState}
    (h : Reachable n mode s) :
    s.board_size = n ∧ s.mode = mode ∧
    s.win_combinations = generate_win_combinations n ∧
    s.board_limit = n * n ∧ WFBoard s ∧
    (s.current_player = 'X' ∨ s.current_player = 'O') ∧
    s.winner_count = countMarks s := by
  induction h with
  | init =>
    refine ⟨rfl, rfl, rfl, rfl, wf_initState n mode, Or.inl rfl, ?_⟩
    show 0 = countMarks (initState n mode)
    exact (countMarks_blank n n).symm
  | @reset t h ih =>
    obtain ⟨hbs, hm, hwc, hbl, hwf, hcp, hcnt⟩ := ih
    refine ⟨hbs, hm, hwc, by simp [TTT.reset, hbs], wf_reset _, Or.inl rfl, ?_⟩
    show 0 = countMarks (TTT.reset t)
    unfold countMarks TTT.reset
    simp only []
    rw [hbs]
    exact (countMarks_blank n n).symm
  | @move t p h ih =>
    obtain ⟨hbs, hm, hwc, hbl, hwf, hcp, hcnt⟩ := ih
    by_cases hin : 1 ≤ p ∧ p ≤ (t.board_limit : Int)
    · by_cases hocc : is_cell_occupied t (targetCell t p).1 (targetCell t p).2 = true
      · rw [try_make_move_occ t p hin hocc]
        exact ⟨hbs, hm, hwc, hbl, hwf, hcp, hcnt⟩
      · have hv : t.current_player ≠ ' ' := by
          rcases hcp with hx | hx <;> rw [hx] <;> decide
        have hL : t.board_limit = t.board_size * t.board_size := by rw [hbl, hbs]
        obtain ⟨hc1, hc2⟩ := try_make_move_ok_inv hin (by simpa using hocc) hwf hL hv
        rw [try_make_move_ok t p hin (by simpa using hocc)] at hc1 hc2 ⊢
        refine ⟨hbs, hm, hwc, hbl, hc2, hcp, ?_⟩
        show t.winner_count + 1 = _
        rw [hcnt]
        exact hc1.symm
    · rw [try_make_move_out t p hin]
      exact ⟨hbs, hm, hwc, hbl, hwf, hcp, hcnt⟩
  | @switch t h ih =>
    obtain ⟨hbs, hm, hwc, hbl, hwf, hcp, hcnt⟩ := ih
    refine ⟨hbs, hm, hwc, hbl, hwf, ?_, hcnt⟩
    by_cases hx : t.current_player = 'X'
    · simp [switch_player, hx]
    · simp [switch_player, hx]
  | @winnerCheck t h ih =>
    obtain ⟨hbs, hm, hwc, hbl, hwf, hcp, hcnt⟩ := ih
    rcases isWinnerLoop_snd t t.win_combinations with hs | ⟨combo, hs⟩
    · rw [show (is_winner t).2 = t from hs]
      exact ⟨hbs, hm, hwc, hbl, hwf, hcp, hcnt⟩
    · rw [show (is_winner t).2 = { t with winning_coords := combo } from hs]
      exact ⟨hbs, hm, hwc, hbl, hwf, hcp, hcnt⟩

/-- C8: after any reachable sequence of operations on a game of size `n`,
`reset` restores exactly the state of a freshly constructed game of the same
size and mode: empty board, `X` to move, zero move count, no winning line. -/
theorem reset_eq_fresh_init (n : Nat) (mode : Option Bool) (s : GameState)
    (h : Reachable n mode s) : TTT.reset s = initState n mode := by
  obtain ⟨hbs, hm, hwc, -, -, -, -⟩ := reachable_inv h
  cases s with
  | mk bs bl bd rp md wc wcd cp cbp ipb wcnt pos =>
    dsimp only at hbs hm hwc
    subst hbs
    subst hm
    subst hwc
    rfl

/-- C8 (witness): resetting after one move on a 3×3 game restores the fresh
state. -/
theorem reset_eq_fresh_init_witness :
    TTT.reset (try_make_move (initState 3 none) 5).1 = initState 3 none :=
  reset_eq_fresh_init 3 none _ (Reachable.move 5 Reachable.init)

/-- C10: in every reachable state, `winner_count` equals the number of
non-blank cells on the board; successful moves raise both by one, failed
moves and the other operations change neither side of the equation. -/
theorem move_count_eq_marks (n : Nat) (mode : Option Bool) (s : GameState)
    (h : Reachable n mode s) : s.winner_count = countMarks s :=
  (reachable_inv h).2.2.2.2.2.2

/-- C10 (witness): after one successful move on a 2×2 board the counter and
the mark count are both 1. -/
theorem move_count_eq_marks_witness :
    (try_make_move (initState 2 none) 1).1.winner_count =
      countMarks (try_make_move (initState 2 none) 1).1 :=
  move_count_eq_marks 2 none _ (Reachable.move 1 Reachable.init)

/-- `find_empty_in_line`'s scan is the first catalog line matching the
symbol-count/blank-count test, mapped to the coordinate at its blank's
index. -/
theorem findEmptyLoop_eq (s : GameState) (symbol : Char) (target_count : Nat)
    (l : List (List (Nat × Nat))) :
    findEmptyLoop s symbol target_count l =
    (l.find? (fun combo =>
      decide ((lineValues s combo).count symbol = target_count ∧
        (lineValues s combo).count ' ' = 1))).map
      (fun combo => combo.getD ((lineValues s combo).indexOf ' ') (0, 0)) := by
  induction l with
  | nil => simp [findEmptyLoop]
  | cons combo rest ih =>
    by_cases h : (lineValues s combo).count symbol = target_count ∧
        (lineValues s combo).count ' ' = 1
    · have hl : findEmptyLoop s symbol target_count (combo :: rest) =
          some (combo.getD ((lineValues s combo).indexOf ' ') (0, 0)) := by
        simp [findEmptyLoop, h]
      rw [hl, List.find?_cons_of_pos _ (by simpa using h)]
      rfl
    · have hl : findEmptyLoop s symbol target_count (combo :: rest) =
          findEmptyLoop s symbol target_count rest := by
        simp [findEmptyLoop, h]
      rw [hl, List.find?_cons_of_neg _ (by simpa using h), ih]

/-- A successful `find_empty_in_line` returns the unique empty cell of the
first catalog line with the requested symbol count and exactly one blank. -/
theorem findEmpty_unique_blank (s : GameState) (symbol : Char) (target_count : Nat)
    (m : Nat × Nat) (hm : find_empty_in_line s symbol target_count = some m) :
    ∃ combo, s.win_combinations.find? (fun combo =>
        decide ((lineValues s combo).count symbol = target_count ∧
          (lineValues s combo).count ' ' = 1)) = some combo ∧
      m ∈ combo ∧ cellAt s.board m.1 m.2 = ' ' ∧
      ∀ m2 ∈ combo, cellAt s.board m2.1 m2.2 = ' ' → m2 = m := by
  unfold find_empty_in_line at hm
  rw [findEmptyLoop_eq] at hm
  cases hfind : s.win_combinations.find? (fun combo =>
      decide ((lineValues s combo).count symbol = target_count ∧
        (lineValues s combo).count ' ' = 1)) with
  | none =>
    rw [hfind] at hm
    exact absurd hm (by simp)
  | some combo =>
    rw [hfind] at hm
    simp only [Option.map_some', Option.some.injEq] at hm
    have hpred := List.find?_some hfind
    simp only [decide_eq_true_eq] at hpred
    obtain ⟨hsym, hone⟩ := hpred
    have hmem : ' ' ∈ lineValues s combo := by
      rw [← List.count_pos_iff]
      omega
    have hidx : (lineValues s combo).indexOf ' ' < (lineValues s combo).length :=
      List.indexOf_lt_length.mpr hmem
    have hidx' : (lineValues s combo).indexOf ' ' < combo.length := by
      rwa [lineValues, List.length_map] at hidx
    have hmval : m = combo[(lineValues s combo).indexOf ' '] := by
      rw [← hm, List.getD_eq_getElem combo (0, 0) hidx']
    have hcellm : cellAt s.board m.1 m.2 = ' ' := by
      have hl : (lineValues s combo)[(lineValues s combo).indexOf ' '] = ' ' :=
        List.getElem_indexOf hidx
      have hstep : (combo.map (fun rc => cellAt s.board rc.1 rc.2))[(lineValues s combo).indexOf ' ']
          = cellAt s.board (combo[(lineValues s combo).indexOf ' ']).1
            (combo[(lineValues s combo).indexOf ' ']).2 := by
        apply List.getElem_map
      rw [hmval, ← hstep]
      exact hl
    refine ⟨combo, rfl, by rw [hmval]; exact List.getElem_mem hidx', hcellm, ?_⟩
    intro m2 hm2 hcell2
    have hq : (combo.filter (fun rc => cellAt s.board rc.1 rc.2 == ' ')).length = 1 := by
      rw [← List.countP_eq_length_filter]
      have : (lineValues s combo).count ' ' =
          combo.countP (fun rc => cellAt s.board rc.1 rc.2 == ' ') := by
        rw [lineValues, List.count, List.countP_map]
        rfl
      omega
    obtain ⟨x, hx⟩ := List.length_eq_one.mp hq
    have hmx : m ∈ combo.filter (fun rc => cellAt s.board rc.1 rc.2 == ' ') :=
      List.mem_filter.mpr ⟨by rw [hmval]; exact List.getElem_mem hidx', by simp [hcellm]⟩
    have hm2x : m2 ∈ combo.filter (fun rc => cellAt s.board rc.1 rc.2 == ' ') :=
      List.mem_filter.mpr ⟨hm2, by simp [hcell2]⟩
    rw [hx] at hmx hm2x
    simp only [List.mem_singleton] at hmx hm2x
    rw [hm2x, hmx]

/-- Every coordinate of every generated line is inside the board. -/
theorem catalog_coords_lt (n : Nat) (h2 : 2 ≤ n) (h9 : n ≤ 9) :
    ∀ l ∈ generate_win_combinations n, ∀ rc ∈ l, rc.1 < n ∧ rc.2 < n := by
  have aux : ∀ m : Fin 10, 2 ≤ m.val →
      ∀ l ∈ generate_win_combinations m.val, ∀ rc ∈ l, rc.1 < m.val ∧ rc.2 < m.val := by
    decide
  exact aux ⟨n, by omega⟩ h2

/-- The empty-cell comprehension is empty iff every in-bounds cell is
non-blank. -/
theorem empty_cells_eq_nil_iff (s : GameState) :
    empty_cells s = [] ↔
    ∀ r < s.board_size, ∀ c < s.board_size, ¬(cellAt s.board r c = ' ') := by
  simp [empty_cells, List.flatten_eq_nil_iff, List.map_eq_nil_iff, List.filter_eq_nil_iff,
    List.mem_range]

/-- With no blank cell on the board, no catalog line can have exactly one
blank, so `find_empty_in_line` fails. -/
theorem find_empty_none_of_no_blank (s : GameState) (symbol : Char) (target_count : Nat)
    (hw : s.win_combinations = generate_win_combinations s.board_size)
    (h2 : 2 ≤ s.board_size) (h9 : s.board_size ≤ 9)
    (hnb : ∀ r < s.board_size, ∀ c < s.board_size, ¬(cellAt s.board r c = ' ')) :
    find_empty_in_line s symbol target_count = none := by
  unfold find_empty_in_line
  rw [findEmptyLoop_eq]
  rw [List.find?_eq_none.mpr]
  · rfl
  · intro combo hcombo
    simp only [decide_eq_true_eq, not_and]
    intro _
    have hzero : (lineValues s combo).count ' ' = 0 := by
      rw [List.count_eq_zero]
      intro hmem
      rw [lineValues, List.mem_map] at hmem
      obtain ⟨rc, hrc, hcell⟩ := hmem
      have hb := catalog_coords_lt s.board_size h2 h9 combo (hw ▸ hcombo) rc hrc
      exact hnb rc.1 hb.1 rc.2 hb.2 hcell
    omega

/-- C2: `_get_ai_move` follows the 4-tier priority with short-circuiting:
the unique empty cell of the first catalog line with `n-1` `O` marks and one
blank; else the same for `X`; else the center `(n/2, n/2)` if empty; else a
cell among the remaining empty cells; and it returns no move exactly when
the board has no empty cell. -/
theorem ai_move_tier_priority (s : GameState) (pickIdx : List (Nat × Nat) → Nat)
    (hw : s.win_combinations = generate_win_combinations s.board_size)
    (h2 : 2 ≤ s.board_size) (h9 : s.board_size ≤ 9) :
    (get_ai_move s pickIdx = none ↔ empty_cells s = []) ∧
    (∀ m, find_empty_in_line s 'O' (s.board_size - 1) = some m →
      get_ai_move s pickIdx = some m) ∧
    (find_empty_in_line s 'O' (s.board_size - 1) = none →
      ∀ m, find_empty_in_line s 'X' (s.board_size - 1) = some m →
        get_ai_move s pickIdx = some m) ∧
    (find_empty_in_line s 'O' (s.board_size - 1) = none →
      find_empty_in_line s 'X' (s.board_size - 1) = none →
      cellAt s.board (s.board_size / 2) (s.board_size / 2) = ' ' →
      get_ai_move s pickIdx = some (s.board_size / 2, s.board_size / 2)) ∧
    (find_empty_in_line s 'O' (s.board_size - 1) = none →
      find_empty_in_line s 'X' (s.board_size - 1) = none →
      ¬(cellAt s.board (s.board_size / 2) (s.board_size / 2) = ' ') →
      empty_cells s ≠ [] →
      ∃ m ∈ empty_cells s, get_ai_move s pickIdx = some m) ∧
    (∀ symbol target_count m,
      find_empty_in_line s symbol target_count = some m →
      ∃ combo, s.win_combinations.find? (fun combo =>
          decide ((lineValues s combo).count symbol = target_count ∧
            (lineValues s combo).count ' ' = 1)) = some combo ∧
        m ∈ combo ∧ cellAt s.board m.1 m.2 = ' ' ∧
        ∀ m2 ∈ combo, cellAt s.board m2.1 m2.2 = ' ' → m2 = m) := by
  have htier5 : find_empty_in_line s 'O' (s.board_size - 1) = none →
      find_empty_in_line s 'X' (s.board_size - 1) = none →
      ¬(cellAt s.board (s.board_size / 2) (s.board_size / 2) = ' ') →
      empty_cells s ≠ [] →
      ∃ m ∈ empty_cells s, get_ai_move s pickIdx = some m := by
    intro hO hX hc hne
    have hlen : 0 < (empty_cells s).length := List.length_pos.mpr hne
    have hidx : pickIdx (empty_cells s) % (empty_cells s).length < (empty_cells s).length :=
      Nat.mod_lt _ hlen
    refine ⟨(empty_cells s)[pickIdx (empty_cells s) % (empty_cells s).length],
      List.getElem_mem hidx, ?_⟩
    have hie : (empty_cells s).isEmpty = false := by
      rw [List.isEmpty_eq_false_iff_exists_mem]
      exact List.exists_mem_of_length_pos hlen
    simp only [get_ai_move, hO, hX, hc, if_false, hie, Bool.false_eq_true]
    rw [List.getD_eq_getElem _ (0, 0) hidx]
  refine ⟨?_, ?_, ?_, ?_, htier5, findEmpty_unique_blank s⟩
  · constructor
    · intro hnone
      by_contra hne
      cases hO : find_empty_in_line s 'O' (s.board_size - 1) with
      | some m =>
        rw [show get_ai_move s pickIdx = some m from by simp [get_ai_move, hO]] at hnone
        exact Option.noConfusion hnone
      | none =>
        cases hX : find_empty_in_line s 'X' (s.board_size - 1) with
        | some m =>
          rw [show get_ai_move s pickIdx = some m from by simp [get_ai_move, hO, hX]] at hnone
          exact Option.noConfusion hnone
        | none =>
          by_cases hc : cellAt s.board (s.board_size / 2) (s.board_size / 2) = ' '
          · rw [show get_ai_move s pickIdx = some (s.board_size / 2, s.board_size / 2) from by
              simp [get_ai_move, hO, hX, hc]] at hnone
            exact Option.noConfusion hnone
          · obtain ⟨m, -, hsome⟩ := htier5 hO hX hc hne
            rw [hsome] at hnone
            exact Option.noConfusion hnone
    · intro hnil
      have hnb := (empty_cells_eq_nil_iff s).mp hnil
      have hO := find_empty_none_of_no_blank s 'O' (s.board_size - 1) hw h2 h9 hnb
      have hX := find_empty_none_of_no_blank s 'X' (s.board_size - 1) hw h2 h9 hnb
      have hc : ¬(cellAt s.board (s.board_size / 2) (s.board_size / 2) = ' ') :=
        hnb _ (by omega) _ (by omega)
      have hie : (empty_cells s).isEmpty = true := by
        rw [hnil]; rfl
      simp [get_ai_move, hO, hX, hc, hie]
  · intro m hm
    simp [get_ai_move, hm]
  · intro hO m hm
    simp [get_ai_move, hO, hm]
  · intro hO hX hc
    simp [get_ai_move, hO, hX, hc]

/-- C2 (witness): with `O` on (0,0) and (0,1) of a 3×3 board, the bot plays
the winning cell (0,2), whatever the random source does. -/
theorem ai_move_tier_priority_witness :
    get_ai_move oWinThreat (fun _ => 0) = some (0, 2) :=
  (ai_move_tier_priority oWinThreat (fun _ => 0) rfl (by decide) (by decide)).2.1
    (0, 2) (by decide)

end TTT
